import Mathlib

/-!
Verification development for the Spectre interview-copilot frontend
(Electron main process + renderer). Text is modelled as `List Char`
(JavaScript strings restricted to the code points exercised here; UTF-16
surrogate issues do not arise for the inputs considered). JavaScript
regular-expression based helpers are embedded as direct character-level
algorithms with the same observable behaviour on the inputs in scope.
-/

namespace Spectre

/-! ### Basic text utilities (JS `String` semantics on lists of characters) -/

/-- Step function for `wsTokens`, folding from the right: `cur` is the
whitespace-free token currently being collected. -/
def wsTokensStep (c : Char) (acc : List (List Char) × List Char) :
    List (List Char) × List Char :=
  if c.isWhitespace then
    match acc with
    | (toks, []) => (toks, [])
    | (toks, cur) => (cur :: toks, [])
  else (acc.1, c :: acc.2)

/-- Maximal whitespace-separated tokens of a character list, in order.
Mirrors JS splitting on whitespace runs with empty entries removed. -/
def wsTokens (l : List Char) : List (List Char) :=
  match l.foldr wsTokensStep ([], []) with
  | (toks, []) => toks
  | (toks, cur) => cur :: toks

/-- JS `normalizeText` (renderer.js line 48):
`value.replace(/\s+/g, ' ').trim()` — every run of whitespace becomes a
single space and outer whitespace is removed, which is exactly joining the
whitespace-separated tokens with single spaces. -/
def normalizeText (l : List Char) : List Char :=
  List.intercalate [' '] (wsTokens l)

/-- JS `String.prototype.trim`. -/
def jsTrim (l : List Char) : List Char :=
  ((l.dropWhile Char.isWhitespace).reverse.dropWhile Char.isWhitespace).reverse

/-- Abbreviation turning a Lean string literal into the character list used
throughout this development. -/
def strL (s : String) : List Char := s.data

/-! ### OverlapMerger (renderer.js `findOverlap`, `appendTranscript`) -/

/-- JS `existing.slice(-n)` for `0 < n ≤ existing.length`: the last `n`
characters. -/
def sliceSuffix (l : List Char) (n : Nat) : List Char :=
  l.drop (l.length - n)

/-- JS `incoming.slice(0, n)`: the first `n` characters. -/
def slicePre (l : List Char) (n : Nat) : List Char :=
  l.take n

/-- The loop of `findOverlap` (renderer.js lines 52-56): try window lengths
from `n` down to 1 and return the first length at which the suffix of
`existing` equals (case-sensitively) the prefix of `incoming`; 0 if none. -/
def findOverlapAux (existing incoming : List Char) : Nat → Nat
  | 0 => 0
  | n + 1 =>
    if sliceSuffix existing (n + 1) = slicePre incoming (n + 1) then n + 1
    else findOverlapAux existing incoming n

/-- JS `findOverlap` (renderer.js lines 50-58). -/
def findOverlap (existing incoming : List Char) : Nat :=
  findOverlapAux existing incoming (min existing.length incoming.length)

/-- The rolling-transcript cap (renderer.js line 1). -/
def TRANSCRIPT_MAX_LENGTH : Nat := 700

/-- JS `appendTranscript` (renderer.js lines 208-224). `buffer` is truthy in
the `needsSpace` test exactly when non-empty, which holds in that branch.
`nextBuffer.slice(-700)` keeps the last 700 characters (the whole string if
shorter), i.e. drops `length - 700` from the front. -/
def appendTranscript (buffer addition : List Char) : List Char :=
  let normalizedAddition := normalizeText addition
  if normalizedAddition = [] then buffer
  else if buffer = [] then normalizedAddition
  else
    let overlap := findOverlap buffer normalizedAddition
    let delta := normalizedAddition.drop overlap
    if delta = [] then buffer
    else
      let needsSpace := buffer.getLast? ≠ some ' ' ∧ delta.head? ≠ some ' '
      let nextBuffer := buffer ++ (if needsSpace then [' '] else []) ++ delta
      nextBuffer.drop (nextBuffer.length - TRANSCRIPT_MAX_LENGTH)

/-- Folding a sequence of upstream fragments into the rolling transcript,
starting from the empty buffer (renderer.js `updateTranscript`). -/
def appendAll (frags : List (List Char)) : List Char :=
  frags.foldl appendTranscript []

/-- The value the merge branch of `appendTranscript` builds before the
final `slice(-700)` truncation (the "untruncated merged string"). -/
def mergedUntruncated (buffer addition : List Char) : List Char :=
  let normalizedAddition := normalizeText addition
  let delta := normalizedAddition.drop (findOverlap buffer normalizedAddition)
  if buffer.getLast? ≠ some ' ' ∧ delta.head? ≠ some ' ' then
    buffer ++ [' '] ++ delta
  else buffer ++ delta

/-! ### Claim-side overlap (modelled from the spec's words, for comparison
with the source's `findOverlap`): a case-insensitive character pass with
minimum window 4, then a word-level fallback with minimum window 3 words. -/

/-- ASCII-style lowercasing of a character list (JS `toLowerCase` restricted
to the characters exercised here). -/
def lowerList (l : List Char) : List Char := l.map Char.toLower

/-- Modelled from the spec: the claimed character-level pass — decreasing
window lengths down to a minimum threshold greater than 3 (i.e. ≥ 4),
case-insensitive comparison. -/
def findOverlapClaimChar (existing incoming : List Char) : Nat → Option Nat
  | 0 => none
  | n + 1 =>
    if n + 1 < 4 then none
    else if lowerList (sliceSuffix existing (n + 1)) = lowerList (slicePre incoming (n + 1)) then
      some (n + 1)
    else findOverlapClaimChar existing incoming n

/-- Joining word tokens with single spaces. -/
def joinWords (ws : List (List Char)) : List Char :=
  List.intercalate [' '] ws

/-- Modelled from the spec: the claimed word-level fallback — decreasing
word-count windows from `min` down to 3, comparing the lower-cased joined
tail of the buffer's words against the joined head of the fragment's words;
on a match, the character length of that many leading fragment words. -/
def findOverlapClaimWordAux (wa wb : List (List Char)) : Nat → Option Nat
  | 0 => none
  | k + 1 =>
    if k + 1 < 3 then none
    else if lowerList (joinWords (wa.drop (wa.length - (k + 1)))) =
            lowerList (joinWords (wb.take (k + 1))) then
      some (joinWords (wb.take (k + 1))).length
    else findOverlapClaimWordAux wa wb k

/-- Modelled from the spec: the overlap computation as the claim describes
it (character pass with threshold, then word fallback, else 0). -/
def findOverlapClaim (existing incoming : List Char) : Nat :=
  match findOverlapClaimChar existing incoming (min existing.length incoming.length) with
  | some n => n
  | none =>
    let wa := wsTokens existing
    let wb := wsTokens incoming
    (findOverlapClaimWordAux wa wb (min wa.length wb.length)).getD 0

/-! ### JSON values (the result of JS `JSON.parse`) -/

/-- JSON values as produced by `JSON.parse`. Only the zero-ness of a number
is observable in the code under study (truthiness checks and strict string
comparisons), so numbers are modelled by that single bit. -/
inductive JVal where
  | jnull
  | jbool (b : Bool)
  | jnum (isZero : Bool)
  | jstr (s : List Char)
  | jarr (elems : List JVal)
  | jobj (fields : List (List Char × JVal))

/-- JS truthiness of a JSON value. -/
def JVal.truthy : JVal → Bool
  | .jnull => false
  | .jbool b => b
  | .jnum isZero => !isZero
  | .jstr s => !s.isEmpty
  | .jarr _ => true
  | .jobj _ => true

/-- JS `typeof v === 'object'` for a `JSON.parse` result: objects, arrays
and `null` all have typeof `object`. -/
def JVal.isObjLike : JVal → Bool
  | .jobj _ => true
  | .jarr _ => true
  | .jnull => true
  | _ => false

/-- JS property access `parsed.key` on a `JSON.parse` result: for an object
the value of the last field with that key (later duplicates overwrite
earlier ones in `JSON.parse`); `undefined` (here `none`) otherwise. -/
def JVal.get : JVal → List Char → Option JVal
  | .jobj fields, key => ((fields.filter (fun f => f.1 = key)).getLast?).map (fun f => f.2)
  | _, _ => none

/-- JS chained `a || b || ...` over possibly-undefined values, as observed
by truthiness and strict string equality: the first truthy value, `none`
when every operand is falsy or undefined (a final falsy operand behaves
identically to `undefined` for every observation made by this code). -/
def firstTruthy : List (Option JVal) → Option JVal
  | [] => none
  | none :: rest => firstTruthy rest
  | some v :: rest => if v.truthy then some v else firstTruthy rest

/-- JS strict comparison `channel === s` where `channel` may be undefined. -/
def channelIs (ch : Option JVal) (s : List Char) : Bool :=
  match ch with
  | some (.jstr t) => t = s
  | _ => false

/-! ### A JSON parser (embedding of JS `JSON.parse`)

Restricted to the JSON actually exchanged by this program: objects, arrays,
strings with the common escapes, numbers, booleans and null. `\uXXXX`
escapes are not modelled; none of the inputs used in theorems contain
them. -/

/-- JSON insignificant whitespace. -/
def isJsonWs (c : Char) : Bool :=
  c = ' ' ∨ c = '\t' ∨ c = '\n' ∨ c = '\r'

/-- Skip insignificant whitespace. -/
def skipJsonWs (l : List Char) : List Char :=
  l.dropWhile isJsonWs

/-- The two brace characters, named to keep them out of string literals. -/
def lbrace : Char := Char.ofNat 123

/-- Closing brace. -/
def rbrace : Char := Char.ofNat 125

/-- Decode one string escape character. -/
def decodeEscape (e : Char) : Option Char :=
  if e = '"' then some '"'
  else if e = '\\' then some '\\'
  else if e = '/' then some '/'
  else if e = 'n' then some '\n'
  else if e = 't' then some '\t'
  else if e = 'r' then some '\r'
  else if e = 'b' then some (Char.ofNat 8)
  else if e = 'f' then some (Char.ofNat 12)
  else none

/-- Parse the body of a JSON string after the opening quote; returns the
decoded characters and the remainder after the closing quote. -/
def parseStringBody : Nat → List Char → Option (List Char × List Char)
  | 0, _ => none
  | _, [] => none
  | fuel + 1, c :: rest =>
    if c = '"' then some ([], rest)
    else if c = '\\' then
      match rest with
      | [] => none
      | e :: rest2 =>
        match decodeEscape e with
        | none => none
        | some d => (parseStringBody fuel rest2).map (fun p => (d :: p.1, p.2))
    else (parseStringBody fuel rest).map (fun p => (c :: p.1, p.2))

/-- Parse a JSON number; only its zero-ness is retained (see `JVal.jnum`). -/
def parseNumber (l : List Char) : Option (JVal × List Char) :=
  let (neg, l1) := if l.head? = some '-' then (true, l.drop 1) else (false, l)
  let intDigits := l1.takeWhile Char.isDigit
  if intDigits = [] then none
  else
    let l2 := l1.drop intDigits.length
    let (fracDigits, l3) :=
      if l2.head? = some '.' then
        let d := (l2.drop 1).takeWhile Char.isDigit
        (d, (l2.drop 1).drop d.length)
      else ([], l2)
    if l2.head? = some '.' ∧ fracDigits = [] then none
    else
      let l4 :=
        if l3.head? = some 'e' ∨ l3.head? = some 'E' then
          let l5 := l3.drop 1
          let l6 := if l5.head? = some '+' ∨ l5.head? = some '-' then l5.drop 1 else l5
          let expDigits := l6.takeWhile Char.isDigit
          if expDigits = [] then none else some (l6.drop expDigits.length)
        else some l3
      match l4 with
      | none => none
      | some rest =>
        let isZero := (intDigits ++ fracDigits).all (fun c => c = '0')
        let _ := neg
        some (JVal.jnum isZero, rest)

mutual

/-- Parse one JSON value (recursive descent, fuel-bounded). -/
def parseVal : Nat → List Char → Option (JVal × List Char)
  | 0, _ => none
  | fuel + 1, l =>
    match skipJsonWs l with
    | [] => none
    | c :: rest =>
      if c = '"' then (parseStringBody (fuel + 1) rest).map (fun p => (JVal.jstr p.1, p.2))
      else if c = lbrace then
        match skipJsonWs rest with
        | d :: rest2 =>
          if d = rbrace then some (JVal.jobj [], rest2)
          else parseMembers fuel (skipJsonWs rest) []
        | [] => none
      else if c = '[' then
        match skipJsonWs rest with
        | ']' :: rest2 => some (JVal.jarr [], rest2)
        | _ => parseElems fuel (skipJsonWs rest) []
      else if (strL ("true")).isPrefixOf (c :: rest) then
        some (JVal.jbool true, (c :: rest).drop 4)
      else if (strL ("false")).isPrefixOf (c :: rest) then
        some (JVal.jbool false, (c :: rest).drop 5)
      else if (strL ("null")).isPrefixOf (c :: rest) then
        some (JVal.jnull, (c :: rest).drop 4)
      else parseNumber (c :: rest)

/-- Parse the members of a JSON object, positioned at a key. -/
def parseMembers : Nat → List Char → List (List Char × JVal) →
    Option (JVal × List Char)
  | 0, _, _ => none
  | fuel + 1, l, acc =>
    match l with
    | '"' :: r =>
      match parseStringBody (fuel + 1) r with
      | none => none
      | some (key, r2) =>
        match skipJsonWs r2 with
        | ':' :: r4 =>
          match parseVal fuel r4 with
          | none => none
          | some (v, r5) =>
            match skipJsonWs r5 with
            | ',' :: r7 => parseMembers fuel (skipJsonWs r7) (acc ++ [(key, v)])
            | d :: r7 =>
              if d = rbrace then some (JVal.jobj (acc ++ [(key, v)]), r7) else none
            | [] => none
        | _ => none
    | _ => none

/-- Parse the elements of a JSON array, positioned at a value. -/
def parseElems : Nat → List Char → List JVal → Option (JVal × List Char)
  | 0, _, _ => none
  | fuel + 1, l, acc =>
    match parseVal fuel l with
    | none => none
    | some (v, r) =>
      match skipJsonWs r with
      | ',' :: r2 => parseElems fuel (skipJsonWs r2) (acc ++ [v])
      | ']' :: r2 => some (JVal.jarr (acc ++ [v]), r2)
      | _ => none

end

/-- Embedding of JS `JSON.parse text` as used here: parse one value and
require only trailing whitespace; any failure (an exception in JS) is
`none`. -/
def jsonParse (text : List Char) : Option JVal :=
  match parseVal (2 * text.length + 2) text with
  | some (v, rest) => if skipJsonWs rest = [] then some v else none
  | none => none

/-! ### StreamEventInterpreter (`interpretAskMessage`, part_000 lines 330-377) -/

/-- Canonical events produced by the stream-event interpreter. -/
inductive AskEvent where
  | noop
  | endEv
  | errorEv (err : JVal)
  | summary (chunk : JVal)
  | summaryDone
  | answer (chunk : JVal)

/-- JS `parsed.status === 'done'`. -/
def statusDone (parsed : JVal) : Bool :=
  match parsed.get (strL ("status")) with
  | some (.jstr s) => s = strL ("done")
  | _ => false

/-- JS `parsed.error || chunk || 'Backend error'`. -/
def errorPayloadOf (parsed : JVal) (chunk : JVal) : JVal :=
  match firstTruthy [parsed.get (strL ("error")), some chunk] with
  | some v => v
  | none => .jstr (strL ("Backend error"))

/-- The structured-decode branch of `interpretAskMessage` (part_000 lines
346-369): `none` when the parse failed, the value was not object-like or
the object carried nothing actionable, so that control falls through to the
heuristic. -/
def interpretParsedObject (parsed? : Option JVal) : Option AskEvent :=
  match parsed? with
  | none => none
  | some parsed =>
    if parsed.truthy ∧ parsed.isObjLike then
      let channel := firstTruthy [parsed.get (strL ("type")), parsed.get (strL ("channel")),
        parsed.get (strL ("role")), parsed.get (strL ("kind"))]
      let chunk := (firstTruthy [parsed.get (strL ("chunk")), parsed.get (strL ("text")),
        parsed.get (strL ("summary")), parsed.get (strL ("answer")),
        parsed.get (strL ("data"))]).getD (.jstr [])
      if channelIs channel (strL ("summary")) ∨ channelIs channel (strL ("question")) then
        some (.summary chunk)
      else if channelIs channel (strL ("summary_done")) ∨ channelIs channel (strL ("question_done"))
          ∨ channelIs channel (strL ("question_complete")) then
        some .summaryDone
      else if channelIs channel (strL ("answer")) ∨ channelIs channel (strL ("response")) then
        some (.answer chunk)
      else if channelIs channel (strL ("end")) ∨ channelIs channel (strL ("complete"))
          ∨ statusDone parsed then
        some .endEv
      else if channelIs channel (strL ("error")) ∨ ((parsed.get (strL ("error"))).any JVal.truthy) then
        some (.errorEv (errorPayloadOf parsed chunk))
      else if chunk.truthy then some (.answer chunk)
      else none
    else none

/-- JS `interpretAskMessage` (part_000 lines 330-377). The input is the
frame after the raw-to-text coercion: `none` models a `null` frame, and
`text.replace('[ERROR]', '')` drops the first occurrence, which for a
prefixed frame is the leading 7 characters. -/
def interpretAskMessage (raw : Option (List Char)) : AskEvent :=
  match raw with
  | none => .noop
  | some text =>
    if text = [] then .noop
    else if text = strL ("[END]") then .endEv
    else if (strL ("[ERROR]")).isPrefixOf text then .errorEv (.jstr (jsTrim (text.drop 7)))
    else
      match interpretParsedObject (jsonParse text) with
      | some ev => ev
      | none =>
        if (jsTrim text).getLast? = some '?' then .summary (.jstr text)
        else .answer (.jstr text)

/-! ### Claim-side interpreter (modelled from the claim's words, for
comparison with the source's `interpretAskMessage`): a channel
discriminator classified into kinds, then the fixed precedence mapping. -/

/-- The channel kinds named by the claim. -/
inductive ChannelKind where
  | summaryCh
  | summaryDoneCh
  | answerCh
  | endCh
  | errorCh
  | otherCh
deriving Repr, DecidableEq

/-- Classify a channel discriminator value into the claim's kinds. -/
def channelKindOf (ch : Option JVal) : ChannelKind :=
  if channelIs ch (strL ("summary")) ∨ channelIs ch (strL ("question")) then .summaryCh
  else if channelIs ch (strL ("summary_done")) ∨ channelIs ch (strL ("question_done"))
      ∨ channelIs ch (strL ("question_complete")) then .summaryDoneCh
  else if channelIs ch (strL ("answer")) ∨ channelIs ch (strL ("response")) then .answerCh
  else if channelIs ch (strL ("end")) ∨ channelIs ch (strL ("complete")) then .endCh
  else if channelIs ch (strL ("error")) then .errorCh
  else .otherCh

/-- The heuristic fallback as the claim states it: trimmed text ending in a
question mark is a summary, anything else an answer. -/
def heuristicClassify (text : List Char) : AskEvent :=
  if (jsTrim text).getLast? = some '?' then .summary (.jstr text)
  else .answer (.jstr text)

/-- Modelled from the claim's words: interpret with the channel mapping
expressed through `ChannelKind`, the `status = done` and error-field
fallbacks attached to the kinds as the claim orders them. -/
def interpretClaim (raw : Option (List Char)) : AskEvent :=
  match raw with
  | none => .noop
  | some text =>
    if text = [] then .noop
    else if text = strL ("[END]") then .endEv
    else if (strL ("[ERROR]")).isPrefixOf text then .errorEv (.jstr (jsTrim (text.drop 7)))
    else
      match jsonParse text with
      | none => heuristicClassify text
      | some parsed =>
        if parsed.truthy ∧ parsed.isObjLike then
          let channel := firstTruthy [parsed.get (strL ("type")), parsed.get (strL ("channel")),
            parsed.get (strL ("role")), parsed.get (strL ("kind"))]
          let chunk := (firstTruthy [parsed.get (strL ("chunk")), parsed.get (strL ("text")),
            parsed.get (strL ("summary")), parsed.get (strL ("answer")),
            parsed.get (strL ("data"))]).getD (.jstr [])
          match channelKindOf channel with
          | .summaryCh => .summary chunk
          | .summaryDoneCh => .summaryDone
          | .answerCh => .answer chunk
          | .endCh => .endEv
          | .errorCh =>
            if statusDone parsed then .endEv
            else .errorEv (errorPayloadOf parsed chunk)
          | .otherCh =>
            if statusDone parsed then .endEv
            else if (parsed.get (strL ("error"))).any JVal.truthy then
              .errorEv (errorPayloadOf parsed chunk)
            else if chunk.truthy then .answer chunk
            else heuristicClassify text
        else heuristicClassify text

/-! ### SessionCoordinator (main-process globals and the `start-answer`
handler; part_000 lines 16-19, 379-485 and 539-576) -/

/-- The main-process session globals `answerInProgress`,
`hudListeningState` and `answerSessionId`. -/
structure CoordState where
  answerInProgress : Bool
  hudListeningState : Bool
  answerSessionId : Nat
deriving Repr, DecidableEq

/-- Display relay events sent to the brain window (`sendToWindow`). -/
inductive RelayEvent where
  | questionStreamReset (sessionId : Nat)
  | questionCompleteReset (sessionId : Nat)
  | questionStream (sessionId : Nat) (chunk : JVal)
  | questionComplete (sessionId : Nat)
  | answerStream (sessionId : Nat) (chunk : JVal)

/-- One `answer-complete` notification (sent to both the brain and the HUD
windows; the pair is modelled as a single completion record). -/
structure Completion where
  status : List Char
  err : Option JVal

/-- The state of one answer-session run: the globals, the per-session
`sessionFinished` flag of `startAnswerStream`, and the histories of
completion notifications and display relays. -/
structure StreamState where
  coord : CoordState
  sessionFinished : Bool
  completions : List Completion
  relays : List RelayEvent

/-- JS `finalizeAnswerSession` (part_000 lines 379-397): skipped entirely
for a superseded session id; otherwise closes the socket (not modelled),
clears the busy flag, re-enables HUD listening and sends the
`answer-complete` notification. -/
def finalizeAnswerSession (status : List Char) (err : Option JVal) (sessionId : Nat)
    (st : StreamState) : StreamState :=
  if sessionId ≠ st.coord.answerSessionId then st
  else
    { st with
      coord := { st.coord with answerInProgress := false, hudListeningState := true }
      completions := st.completions ++ [⟨status, err⟩] }

/-- The `complete` closure of `startAnswerStream` (part_000 lines 412-416):
idempotent via the per-session `sessionFinished` flag. -/
def completeSession (sid : Nat) (status : List Char) (err : Option JVal)
    (st : StreamState) : StreamState :=
  if st.sessionFinished then st
  else finalizeAnswerSession status err sid { st with sessionFinished := true }

/-- Socket events delivered to the handlers wired in `startAnswerStream`.
An error event carries `error?.message` (possibly absent or empty). -/
inductive SockEv where
  | openEv
  | message (data : Option (List Char))
  | errorWith (msg : Option (List Char))
  | closeEv

/-- JS `error?.message || 'Connection error'`. -/
def connectionErrorMsg (msg : Option (List Char)) : List Char :=
  match msg with
  | some s => if s = [] then strL ("Connection error") else s
  | none => strL ("Connection error")

/-- One socket event processed by the handlers of `startAnswerStream`
(part_000 lines 428-482). The open handler sends the question payload
(send success assumed; a throwing send is not modelled). -/
def stepSockEv (sid : Nat) (st : StreamState) (ev : SockEv) : StreamState :=
  match ev with
  | .openEv => st
  | .message data =>
    match interpretAskMessage data with
    | .summary chunk =>
      if chunk.truthy then { st with relays := st.relays ++ [.questionStream sid chunk] } else st
    | .summaryDone => { st with relays := st.relays ++ [.questionComplete sid] }
    | .answer chunk =>
      if chunk.truthy then { st with relays := st.relays ++ [.answerStream sid chunk] } else st
    | .endEv => completeSession sid (strL ("done")) none st
    | .errorEv err =>
      completeSession sid (strL ("error"))
        (some (if err.truthy then err else .jstr (strL ("Backend error")))) st
    | .noop => st
  | .errorWith msg =>
    completeSession sid (strL ("error")) (some (.jstr (connectionErrorMsg msg))) st
  | .closeEv =>
    if st.sessionFinished then st
    else completeSession sid (strL ("error")) (some (.jstr (strL ("Connection closed unexpectedly")))) st

/-- The synchronous prefix of `startAnswerStream` (part_000 lines 399-410):
set the busy flag, pause HUD listening, increment the session id and emit
the two reset relays of `resetBrainStreams`. Returns the new session id
with the updated state. -/
def startSessionInit (st : StreamState) : Nat × StreamState :=
  let sid := st.coord.answerSessionId + 1
  (sid,
    { st with
      coord := { answerInProgress := true, hudListeningState := false, answerSessionId := sid }
      sessionFinished := false
      relays := st.relays ++ [.questionStreamReset sid, .questionCompleteReset sid] })

/-- The state of a freshly started session over the globals `g`. -/
def sessionIniState (g : CoordState) : StreamState :=
  (startSessionInit ⟨g, false, [], []⟩).2

/-- Running a list of socket events for the session `sid`. -/
def runSockEvs (sid : Nat) (st : StreamState) (evs : List SockEv) : StreamState :=
  evs.foldl (stepSockEv sid) st

/-- Whether a socket event triggers termination of the session: a message
interpreting to `end` or `error`, a transport error, or a close. -/
def isTerminal (ev : SockEv) : Bool :=
  match ev with
  | .message d =>
    match interpretAskMessage d with
    | .endEv => true
    | .errorEv _ => true
    | _ => false
  | .errorWith _ => true
  | .closeEv => true
  | .openEv => false

/-- The completion notification a terminal trigger produces (meaningful
only when `isTerminal` holds). -/
def expectedCompletion (ev : SockEv) : Completion :=
  match ev with
  | .message d =>
    match interpretAskMessage d with
    | .errorEv err => ⟨strL ("error"), some (if err.truthy then err else .jstr (strL ("Backend error")))⟩
    | _ => ⟨strL ("done"), none⟩
  | .errorWith msg => ⟨strL ("error"), some (.jstr (connectionErrorMsg msg))⟩
  | .closeEv => ⟨strL ("error"), some (.jstr (strL ("Connection closed unexpectedly")))⟩
  | .openEv => ⟨strL ("done"), none⟩

/-! ### The `start-answer` request handler (part_000 lines 539-576) -/

/-- Outcome statuses of the session request operation. -/
inductive StartStatus where
  | started
  | empty
  | invalidQuestion
  | busy
  | error
deriving Repr, DecidableEq

/-- The request payload fields used by the ordered checks (`metadata` only
flows through to the outbound frame and is not modelled). -/
structure StartPayload where
  transcript : List Char
  cleanedQuestion : List Char

/-- Result of the `start-answer` handler: the response status, the session
id on success, and the post-call state. -/
structure StartResult where
  status : StartStatus
  sessionId : Option Nat
  state : StreamState

/-- JS `ipcMain.handle('start-answer', ...)` (part_000 lines 539-576): the
ordered checks on the trimmed transcript and cleaned question, the busy
guard, the transport availability guard, and on success the synchronous
prefix of `startAnswerStream` (whose connection then proceeds via
`stepSockEv`; the catch branch for a throwing constructor is not
modelled). -/
def handleStartAnswer (st : StreamState) (p : StartPayload) (wsAvailable : Bool) :
    StartResult :=
  let transcript := jsTrim p.transcript
  let cleanedQuestion := jsTrim p.cleanedQuestion
  if transcript = [] then ⟨.empty, none, st⟩
  else if cleanedQuestion = [] then ⟨.invalidQuestion, none, st⟩
  else if cleanedQuestion.length < 5 then ⟨.invalidQuestion, none, st⟩
  else if st.coord.answerInProgress then ⟨.busy, none, st⟩
  else if wsAvailable = false then ⟨.error, none, st⟩
  else
    let r := startSessionInit st
    ⟨.started, some r.1, r.2⟩

/-! ### Brain-window stream consumers (renderer.js `initBrain`,
lines 423-557) -/

/-- The brain renderer's state: session id, the two stream buffers, and
the display-observable status strings and flags (`textContent` of the two
stream containers always mirrors the buffers and is not duplicated). -/
structure BrainState where
  sessionId : Nat
  questionBuffer : List Char
  answerBuffer : List Char
  statusText : List Char
  statusVariant : List Char
  questionStateText : List Char
  questionStateVariant : List Char
  answerStateText : List Char
  answerStateVariant : List Char
  questionComplete : Bool
  answerComplete : Bool
  answerErrored : Bool
deriving Repr, DecidableEq

/-- A `question-stream` / `answer-stream` payload as the handlers read it:
`reset` truthiness, `payload.sessionId || 0` (0 when absent or zero), and
`payload.chunk || payload.text || ''` precomputed into `chunk`. -/
structure BrainPayload where
  reset : Bool
  sessionId : Nat
  chunk : List Char
deriving Repr, DecidableEq

/-- JS `resetStreams` (renderer.js lines 464-485). -/
def resetStreams (st : BrainState) (sessionId : Nat) : BrainState :=
  if sessionId < st.sessionId then st
  else
    { st with
      sessionId := sessionId
      questionBuffer := []
      answerBuffer := []
      questionComplete := false
      answerComplete := false
      answerErrored := false
      statusText := strL ("Summarising interviewer question...")
      statusVariant := strL ("active")
      questionStateText := strL ("Summarising interviewer question...")
      questionStateVariant := strL ("active")
      answerStateText := strL ("Awaiting model answer...")
      answerStateVariant := strL ("idle") }

/-- JS `onQuestionStream` handler (renderer.js lines 487-502). -/
def onQuestionStream (st : BrainState) (p : BrainPayload) : BrainState :=
  if p.reset then resetStreams st p.sessionId
  else if p.sessionId ≠ 0 ∧ p.sessionId < st.sessionId then st
  else if p.chunk = [] then st
  else
    { st with
      questionBuffer := st.questionBuffer ++ p.chunk
      questionStateText := strL ("Summarising interviewer question...")
      questionStateVariant := strL ("active") }

/-- JS `onQuestionComplete` handler (renderer.js lines 504-519). -/
def onQuestionComplete (st : BrainState) (p : BrainPayload) : BrainState :=
  if p.sessionId ≠ 0 ∧ p.sessionId < st.sessionId then st
  else if p.reset then
    { st with
      questionComplete := false
      questionStateText := strL ("Summarising interviewer question...")
      questionStateVariant := strL ("active")
      answerStateText := strL ("Awaiting model answer...")
      answerStateVariant := strL ("idle") }
  else
    { st with
      questionComplete := true
      questionStateText := strL ("Summary locked")
      questionStateVariant := strL ("complete")
      answerStateText := strL ("Answer streaming...")
      answerStateVariant := strL ("active")
      statusText := strL ("Answer streaming...")
      statusVariant := strL ("active") }

/-- JS `onAnswerStream` handler (renderer.js lines 521-533). -/
def onAnswerStream (st : BrainState) (p : BrainPayload) : BrainState :=
  if p.sessionId ≠ 0 ∧ p.sessionId < st.sessionId then st
  else if p.chunk = [] then st
  else
    { st with
      statusText := strL ("Model answer streaming...")
      statusVariant := strL ("active")
      answerBuffer := st.answerBuffer ++ p.chunk
      answerStateText := strL ("Answer streaming...")
      answerStateVariant := strL ("active") }

/-- An `answer-complete` payload as the brain handler reads it: the status
(defaulting to `done`), the error text and `payload.sessionId || 0`. -/
structure CompletePayload where
  status : List Char
  err : Option (List Char)
  sessionId : Nat
deriving Repr, DecidableEq

/-- JS ``error ? `Answer failed: ${error}` : 'Answer failed.'`` with JS
truthiness (an empty error string is falsy). -/
def answerFailureText (err : Option (List Char)) : List Char :=
  match err with
  | some e => if e = [] then strL ("Answer failed.") else strL ("Answer failed: ") ++ e
  | none => strL ("Answer failed.")

/-- JS `onAnswerComplete` handler of the brain window (renderer.js lines
535-551). -/
def onAnswerComplete (st : BrainState) (p : CompletePayload) : BrainState :=
  if p.sessionId ≠ 0 ∧ p.sessionId < st.sessionId then st
  else
    let st1 :=
      if p.status = strL ("done") then
        { st with
          statusText := strL ("Answer ready.")
          statusVariant := strL ("complete")
          answerStateText := strL ("Answer ready")
          answerStateVariant := strL ("complete") }
      else
        { st with
          statusText := answerFailureText p.err
          statusVariant := strL ("error")
          answerStateText := strL ("Answer failed")
          answerStateVariant := strL ("error")
          answerErrored := true }
    { st1 with questionComplete := true, answerComplete := true }

/-- The brain state at page load (all display fields empty, session id 0). -/
def brainIniState : BrainState :=
  ⟨0, [], [], [], [], [], [], [], [], false, false, false⟩

/-! ### AnswerSectionSanitizer

Modelled from the spec: the `AnswerSectionSanitizer` component (spec §4.3)
has no implementation under `src/`; the definitions below follow the
spec's words. Canonical sections in fixed order are Intuition, Algorithm,
Implementation, Complexity Analysis; a heading line is 1-6 `#` characters
followed by text; the first token is normalized (lowercase, letters only)
and mapped through a lookup table with prefix matching as fallback. -/

/-- The canonical section names, in their fixed order. -/
inductive Canon where
  | intuition
  | algorithm
  | implementation
  | complexity
deriving Repr, DecidableEq

/-- Modelled from the spec: the heading lookup table (normalized token to
canonical heading, including the "complexity" alias for "Complexity
Analysis"). -/
def canonKeys : List (List Char × Canon) :=
  [(strL ("intuition"), .intuition),
   (strL ("algorithm"), .algorithm),
   (strL ("implementation"), .implementation),
   (strL ("complexity"), .complexity),
   (strL ("complexityanalysis"), .complexity)]

/-- Modelled from the spec: normalize a heading token — lowercase and keep
letters only. -/
def normalizeHeadingToken (l : List Char) : List Char :=
  (l.filter Char.isAlpha).map Char.toLower

/-- Modelled from the spec: map a normalized token to a canonical heading:
exact key match first, then prefix matching against the known keys. -/
def lookupCanon (key : List Char) : Option Canon :=
  match canonKeys.find? (fun kv => kv.1 = key) with
  | some kv => some kv.2
  | none =>
    (canonKeys.find? (fun kv => kv.1.isPrefixOf key ∨ key.isPrefixOf kv.1)).map (fun kv => kv.2)

/-- Modelled from the spec: recognize a heading line (1-6 leading `#` then
text); returns the canonical heading and the inline trailing text after
the first token. -/
def parseHeading (line : List Char) : Option (Canon × List Char) :=
  let hashes := line.takeWhile (fun c => c = '#')
  if hashes.length = 0 ∨ 6 < hashes.length then none
  else
    let rest := jsTrim (line.drop hashes.length)
    if rest = [] then none
    else
      let tok := rest.takeWhile (fun c => ¬ c.isWhitespace)
      let trailing := jsTrim (rest.drop tok.length)
      match lookupCanon (normalizeHeadingToken tok) with
      | some c => some (c, trailing)
      | none => none

/-- Modelled from the spec: the sanitizer state — seen sections, the
current bucket (`preamble`, `skip` or a section), the accumulated bucket
lines and the hard-stop flag. -/
structure SanitizerState where
  seenSections : List Canon
  currentSection : Option (Option Canon)
  preambleLines : List (List Char)
  intuitionLines : List (List Char)
  algorithmLines : List (List Char)
  implementationLines : List (List Char)
  complexityLines : List (List Char)
  hardStopped : Bool
deriving Repr, DecidableEq

/-- Append a line to the bucket of a canonical section. -/
def appendToSection (st : SanitizerState) (c : Canon) (line : List Char) : SanitizerState :=
  match c with
  | .intuition => { st with intuitionLines := st.intuitionLines ++ [line] }
  | .algorithm => { st with algorithmLines := st.algorithmLines ++ [line] }
  | .implementation => { st with implementationLines := st.implementationLines ++ [line] }
  | .complexity => { st with complexityLines := st.complexityLines ++ [line] }

/-- Modelled from the spec: process one line. `currentSection = none`
means the preamble is active, `some none` means skip-until-next-heading,
`some (some c)` means section `c` is active. -/
def sanitizerStep (st : SanitizerState) (line : List Char) : SanitizerState :=
  if st.hardStopped then st
  else
    match parseHeading line with
    | some (c, trailing) =>
      if Canon.complexity ∈ st.seenSections ∧ c ≠ Canon.complexity then
        { st with hardStopped := true }
      else if c ∈ st.seenSections then
        { st with currentSection := some none }
      else
        let st1 := { st with seenSections := st.seenSections ++ [c],
                             currentSection := some (some c) }
        if trailing = [] then st1 else appendToSection st1 c trailing
    | none =>
      match st.currentSection with
      | some none => st
      | some (some c) => appendToSection st c line
      | none => { st with preambleLines := st.preambleLines ++ [line] }

/-- The sanitizer state at the start of an answer stream. -/
def sanitizerIniState : SanitizerState :=
  ⟨[], none, [], [], [], [], [], false⟩

/-- Run the sanitizer over the accumulated answer's lines. -/
def runSanitizer (lines : List (List Char)) : SanitizerState :=
  lines.foldl sanitizerStep sanitizerIniState

/-- The printed title of a canonical section. -/
def canonTitle : Canon → List Char
  | .intuition => strL ("Intuition")
  | .algorithm => strL ("Algorithm")
  | .implementation => strL ("Implementation")
  | .complexity => strL ("Complexity Analysis")

/-- Join lines with newlines. -/
def joinLines (ls : List (List Char)) : List Char :=
  List.intercalate ['\n'] ls

/-- Modelled from the spec: assemble one canonical section's output block
(`## Title` plus its body) when its bucket is non-empty. -/
def sectionBlock (title : List Char) (ls : List (List Char)) : List (List Char) :=
  if ls.isEmpty then []
  else [strL ("## ") ++ title ++ ['\n'] ++ joinLines ls]

/-- Modelled from the spec: the assembled output — preamble first, then
each canonical section in fixed order when non-empty, joined with blank
lines; falling back to the trimmed raw input when nothing accumulated. -/
def assembleSanitized (st : SanitizerState) (raw : List Char) : List Char :=
  let parts :=
    (if st.preambleLines.isEmpty then [] else [joinLines st.preambleLines]) ++
    sectionBlock (canonTitle .intuition) st.intuitionLines ++
    sectionBlock (canonTitle .algorithm) st.algorithmLines ++
    sectionBlock (canonTitle .implementation) st.implementationLines ++
    sectionBlock (canonTitle .complexity) st.complexityLines
  if parts.isEmpty then jsTrim raw
  else List.intercalate (strL ("\n\n")) parts

/-! ## Theorems -/

/-- Characterization of the `findOverlap` loop: the result is bounded by
the starting window, the suffix and leading windows of that length agree,
every longer window within range disagrees. -/
theorem findOverlapAux_spec (e i : List Char) (k : Nat) :
    findOverlapAux e i k ≤ k
    ∧ sliceSuffix e (findOverlapAux e i k) = slicePre i (findOverlapAux e i k)
    ∧ ∀ n, findOverlapAux e i k < n → n ≤ k → sliceSuffix e n ≠ slicePre i n := by
  induction k with
  | zero =>
    refine ⟨Nat.le_refl _, ?_, ?_⟩
    · simp [findOverlapAux, sliceSuffix, slicePre]
    · intro n h1 h2
      omega
  | succ k ih =>
    by_cases hc : sliceSuffix e (k + 1) = slicePre i (k + 1)
    · refine ⟨?_, ?_, ?_⟩
      · simp [findOverlapAux, hc]
      · simp [findOverlapAux, hc]
      · intro n h1 h2
        simp only [findOverlapAux, hc, if_true] at h1
        omega
    · have hr : findOverlapAux e i (k + 1) = findOverlapAux e i k := by
        simp [findOverlapAux, hc]
      refine ⟨?_, ?_, ?_⟩
      · rw [hr]; exact Nat.le_succ_of_le ih.1
      · rw [hr]; exact ih.2.1
      · intro n h1 h2
        rw [hr] at h1
        rcases Nat.lt_or_ge n (k + 1) with h3 | h3
        · exact ih.2.2 n h1 (by omega)
        · have : n = k + 1 := by omega
          rw [this]; exact hc

/-- C2 (amended): the merge's overlap computation is the single
case-sensitive character-level pass of `findOverlap`: the result is the
largest window length `n ≤ min (len buffer) (len fragment)` at which the
buffer's suffix equals the fragment's prefix exactly (0 when only the
empty window matches); windows are tried all the way down to 1, with no
case folding and no word-level fallback. -/
theorem c2_overlap_characterization (e i : List Char) :
    findOverlap e i ≤ min e.length i.length
    ∧ sliceSuffix e (findOverlap e i) = slicePre i (findOverlap e i)
    ∧ ∀ n, findOverlap e i < n → n ≤ min e.length i.length →
        sliceSuffix e n ≠ slicePre i n :=
  findOverlapAux_spec e i (min e.length i.length)

/-- Witness for `c2_overlap_characterization` at a concrete input. -/
theorem c2_overlap_characterization_witness :
    sliceSuffix (strL ("abcd")) (findOverlap (strL ("abcd")) (strL ("bcd")))
      = slicePre (strL ("bcd")) (findOverlap (strL ("abcd")) (strL ("bcd")))
    ∧ sliceSuffix (strL ("abcd")) 3 ≠ slicePre (strL ("xyz")) 3 :=
  ⟨(c2_overlap_characterization (strL ("abcd")) (strL ("bcd"))).2.1,
   (c2_overlap_characterization (strL ("abcd")) (strL ("xyz"))).2.2 3 (by decide) (by decide)⟩

/-- C2 counterexample: the claim's overlap (case-insensitive windows with
threshold 4, word-level fallback) disagrees with the code. The code's
`findOverlap` is case-sensitive — on buffer `HELLO WORLD` and normalized
fragment `hello world more` it finds no overlap (the claim's pass finds
11), so the merge duplicates the text — and it runs its windows down to
length 1, below the claimed threshold. -/
theorem c2_counterexample :
    findOverlap (strL ("HELLO WORLD")) (normalizeText (strL ("hello world more"))) = 0
    ∧ findOverlapClaim (strL ("HELLO WORLD")) (normalizeText (strL ("hello world more"))) = 11
    ∧ appendTranscript (strL ("HELLO WORLD")) (strL ("hello world more"))
        = strL ("HELLO WORLD hello world more")
    ∧ findOverlap (strL ("ab")) (strL ("ba")) = 1
    ∧ findOverlapClaim (strL ("ab")) (strL ("ba")) = 0 := by
  refine ⟨by decide, by decide, by decide, by decide, by decide⟩

/-- If the normalized fragment is a non-empty suffix of the buffer, the
`findOverlap` loop succeeds at its very first window. -/
theorem findOverlap_of_suffix (B nF : List Char) (h : nF <:+ B) (hne : nF ≠ []) :
    findOverlap B nF = nF.length := by
  have hlen : nF.length ≤ B.length := h.length_le
  obtain ⟨k, hk⟩ : ∃ k, nF.length = k + 1 := by
    cases hnf : nF with
    | nil => exact absurd hnf hne
    | cons a l => exact ⟨l.length, by simp [hnf]⟩
  have hmin : min B.length nF.length = nF.length := Nat.min_eq_right hlen
  obtain ⟨t, ht⟩ := h
  have hdrop : sliceSuffix B nF.length = nF := by
    have h1 : B.length - nF.length = t.length := by
      have := congrArg List.length ht
      simp [List.length_append] at this
      omega
    unfold sliceSuffix
    rw [h1, ← ht, List.drop_left]
  have htake : slicePre nF nF.length = nF := List.take_length nF
  unfold findOverlap
  rw [hmin, hk]
  unfold findOverlapAux
  rw [← hk, hdrop, htake]
  simp

/-- C5: a fragment whose whitespace-normalized form duplicates the tail of
the buffer (here even with the claim's length threshold of at least 4)
leaves the buffer byte-for-byte unchanged; so does a fragment that is
empty after normalization, or one whose computed overlap spans the whole
normalized fragment. -/
theorem c5_duplicate_tail_noop (B F : List Char) :
    (normalizeText F <:+ B → 4 ≤ (normalizeText F).length → appendTranscript B F = B)
    ∧ (normalizeText F = [] → appendTranscript B F = B)
    ∧ (findOverlap B (normalizeText F) = (normalizeText F).length →
        appendTranscript B F = B) := by
  refine ⟨?_, ?_, ?_⟩
  · intro hsuf hlen
    have hne : normalizeText F ≠ [] := by
      intro h
      rw [h] at hlen
      simp at hlen
    have hB : B ≠ [] := by
      intro h
      rw [h] at hsuf
      exact hne (List.suffix_nil.mp hsuf)
    have hov : findOverlap B (normalizeText F) = (normalizeText F).length :=
      findOverlap_of_suffix B (normalizeText F) hsuf hne
    unfold appendTranscript
    simp only [hne, if_false, hB, hov, List.drop_length, if_true]
  · intro h
    unfold appendTranscript
    simp [h]
  · intro hov
    by_cases hne : normalizeText F = []
    · unfold appendTranscript
      simp [hne]
    · by_cases hB : B = []
      · exfalso
        have : findOverlap B (normalizeText F) = 0 := by
          unfold findOverlap
          rw [hB]
          simp [findOverlapAux]
        rw [this] at hov
        exact hne (List.length_eq_zero.mp hov.symm)
      · unfold appendTranscript
        simp only [hne, if_false, hB, hov, List.drop_length, if_true]

/-- Witness for `c5_duplicate_tail_noop`: a concrete duplicate-tail
fragment, an empty fragment and a full-overlap fragment are all no-ops. -/
theorem c5_duplicate_tail_noop_witness :
    appendTranscript (strL ("abcd efgh")) (strL (" d efgh  ")) = strL ("abcd efgh")
    ∧ appendTranscript (strL ("abcd efgh")) (strL ("   ")) = strL ("abcd efgh")
    ∧ appendTranscript (strL ("abcd efgh")) (strL ("efgh")) = strL ("abcd efgh") :=
  ⟨(c5_duplicate_tail_noop (strL ("abcd efgh")) (strL (" d efgh  "))).1 (by decide) (by decide),
   (c5_duplicate_tail_noop (strL ("abcd efgh")) (strL ("   "))).2.1 (by decide),
   (c5_duplicate_tail_noop (strL ("abcd efgh")) (strL ("efgh"))).2.2 (by decide)⟩

/-- One append keeps the transcript within the cap, provided the buffer is
within the cap and the normalized fragment is (the empty-buffer branch
returns the normalized fragment untruncated). -/
theorem appendTranscript_length_le (buffer addition : List Char)
    (hb : buffer.length ≤ 700) (ha : (normalizeText addition).length ≤ 700) :
    (appendTranscript buffer addition).length ≤ 700 := by
  simp only [appendTranscript]
  split_ifs with h1 h2 h3 h4
  · exact hb
  · exact ha
  · exact hb
  · simp only [List.length_drop, TRANSCRIPT_MAX_LENGTH]
    omega
  · simp only [List.length_drop, TRANSCRIPT_MAX_LENGTH]
    omega

/-- Folding fragments from any within-cap buffer stays within the cap when
every fragment normalizes to at most 700 characters. -/
theorem foldl_appendTranscript_length_le (frags : List (List Char)) :
    ∀ buffer : List Char, buffer.length ≤ 700 →
      (∀ f ∈ frags, (normalizeText f).length ≤ 700) →
      (frags.foldl appendTranscript buffer).length ≤ 700 := by
  induction frags with
  | nil => intro buffer hb _; simpa using hb
  | cons f fs ih =>
    intro buffer hb h
    simp only [List.foldl_cons]
    exact ih (appendTranscript buffer f)
      (appendTranscript_length_le buffer f hb (h f (List.mem_cons_self f fs)))
      (fun g hg => h g (List.mem_cons_of_mem f hg))

/-- C8 (amended): starting from the empty buffer, the rolling transcript
never exceeds 700 characters provided each fragment normalizes to at most
700 characters (a longer first fragment is returned untruncated by the
empty-buffer branch, see `c8_counterexample`); and whenever the merge
branch runs, the retained text is the untruncated merged string with the
excess dropped from the front — a suffix of it. -/
theorem c8_amended_cap_and_suffix :
    (∀ frags, (∀ f ∈ frags, (normalizeText f).length ≤ 700) →
      (appendAll frags).length ≤ 700)
    ∧ (∀ buffer addition, buffer ≠ [] → normalizeText addition ≠ [] →
        (normalizeText addition).drop (findOverlap buffer (normalizeText addition)) ≠ [] →
        appendTranscript buffer addition
          = (mergedUntruncated buffer addition).drop
              ((mergedUntruncated buffer addition).length - TRANSCRIPT_MAX_LENGTH)
        ∧ appendTranscript buffer addition <:+ mergedUntruncated buffer addition) := by
  constructor
  · intro frags h
    exact foldl_appendTranscript_length_le frags [] (by simp) h
  · intro buffer addition hB hna hdelta
    have heq : appendTranscript buffer addition
        = (mergedUntruncated buffer addition).drop
            ((mergedUntruncated buffer addition).length - TRANSCRIPT_MAX_LENGTH) := by
      simp only [appendTranscript, mergedUntruncated, hna, if_false, hB, hdelta]
      split_ifs with hsp
      · simp
      · simp
    exact ⟨heq, heq ▸ List.drop_suffix _ _⟩

/-- Witness for `c8_amended_cap_and_suffix` at concrete inputs. -/
theorem c8_amended_cap_and_suffix_witness :
    (appendAll [strL ("hello world"), strL ("world again")]).length ≤ 700
    ∧ appendTranscript (strL ("hello world")) (strL ("world again"))
        <:+ mergedUntruncated (strL ("hello world")) (strL ("world again")) :=
  ⟨c8_amended_cap_and_suffix.1 [strL ("hello world"), strL ("world again")] (by decide),
   (c8_amended_cap_and_suffix.2 (strL ("hello world")) (strL ("world again"))
      (by decide) (by decide) (by decide)).2⟩

set_option maxRecDepth 10000 in
/-- C8 counterexample: a single 701-character fragment appended to the
empty buffer is returned whole by the empty-buffer branch, so the rolling
transcript exceeds the 700-character cap. -/
theorem c8_counterexample :
    (appendAll [List.replicate 701 'a']).length = 701
    ∧ 700 < (appendAll [List.replicate 701 'a']).length := by
  constructor
  · decide
  · decide

/-- C1: the `start-answer` handler decides its status by the claim's
ordered checks — empty trimmed transcript, then a trimmed cleaned question
missing or shorter than 5 characters, then the busy guard, then transport
availability, else started with the freshly incremented session id. A busy
response leaves the whole coordinator state untouched and emits nothing
(in particular no stream reset reaches the active session's buffers and
the session id is unchanged). -/
theorem c1_start_answer_checks (st : StreamState) (p : StartPayload) (ws : Bool) :
    ((handleStartAnswer st p ws).status =
      (if jsTrim p.transcript = [] then .empty
       else if (jsTrim p.cleanedQuestion).length < 5 then .invalidQuestion
       else if st.coord.answerInProgress then .busy
       else if ws = false then .error
       else .started))
    ∧ ((handleStartAnswer st p ws).status = .busy → (handleStartAnswer st p ws).state = st)
    ∧ ((handleStartAnswer st p ws).status = .started →
        (handleStartAnswer st p ws).sessionId = some (st.coord.answerSessionId + 1)
        ∧ (handleStartAnswer st p ws).state.coord.answerSessionId
            = st.coord.answerSessionId + 1) := by
  simp only [handleStartAnswer, startSessionInit]
  split_ifs with h1 h2 h3 h4 h5 <;> simp_all

/-- Witness for `c1_start_answer_checks`: a busy coordinator rejects a
valid request and its state (flags, session id, relay history) is
unchanged. -/
theorem c1_start_answer_checks_witness :
    (handleStartAnswer ⟨⟨true, false, 7⟩, false, [], []⟩
        ⟨strL ("tell me about x"), strL ("what is x?")⟩ true).state
      = ⟨⟨true, false, 7⟩, false, [], []⟩ :=
  (c1_start_answer_checks ⟨⟨true, false, 7⟩, false, [], []⟩
      ⟨strL ("tell me about x"), strL ("what is x?")⟩ true).2.1 (by decide)

/-- C7: `interpretAskMessage` classifies every frame by the claim's fixed
precedence — null/empty to Noop, the `[END]` sentinel, the `[ERROR]`
prefix, then the JSON channel mapping (summary/question, the three
summary-done channels, answer/response, end/complete or a `done` status,
error channel or error field, payload-text default), and otherwise the
trailing-question-mark heuristic — as witnessed by the claim-side
restructured `interpretClaim` and the claim's three concrete examples. -/
theorem c7_interpret_precedence :
    (∀ raw, interpretAskMessage raw = interpretClaim raw)
    ∧ interpretAskMessage (some (strL ("[END]"))) = .endEv
    ∧ interpretAskMessage (some (strL ("\x7b\"type\":\"error\",\"error\":\"boom\"\x7d")))
        = .errorEv (.jstr (strL ("boom")))
    ∧ interpretAskMessage (some (strL ("Is this a question?")))
        = .summary (.jstr (strL ("Is this a question?"))) := by
  refine ⟨?_, rfl, rfl, rfl⟩
  intro raw
  cases raw with
  | none => rfl
  | some text =>
    simp only [interpretAskMessage, interpretClaim]
    by_cases h0 : text = []
    · simp [h0]
    · simp only [h0, if_false]
      by_cases h1 : text = strL ("[END]")
      · simp [h1]
      · simp only [h1, if_false]
        by_cases h2 : (strL ("[ERROR]")).isPrefixOf text = true
        · simp [h2]
        · simp only [h2, Bool.false_eq_true, if_false]
          cases hj : jsonParse text with
          | none => simp [interpretParsedObject, heuristicClassify]
          | some v =>
            simp only [interpretParsedObject, heuristicClassify]
            generalize hch : firstTruthy [v.get (strL ("type")), v.get (strL ("channel")),
              v.get (strL ("role")), v.get (strL ("kind"))] = ch
            generalize hck : (firstTruthy [v.get (strL ("chunk")), v.get (strL ("text")),
              v.get (strL ("summary")), v.get (strL ("answer")),
              v.get (strL ("data"))]).getD (JVal.jstr []) = ck
            by_cases ht : v.truthy = true
            · by_cases hobjlike : v.isObjLike = true
              · by_cases s1 : channelIs ch (strL ("summary")) = true
                · simp [channelKindOf, ht, hobjlike, s1]
                · by_cases s2 : channelIs ch (strL ("question")) = true
                  · simp [channelKindOf, ht, hobjlike, s1, s2]
                  · by_cases d1 : channelIs ch (strL ("summary_done")) = true
                    · simp [channelKindOf, ht, hobjlike, s1, s2, d1]
                    · by_cases d2 : channelIs ch (strL ("question_done")) = true
                      · simp [channelKindOf, ht, hobjlike, s1, s2, d1, d2]
                      · by_cases d3 : channelIs ch (strL ("question_complete")) = true
                        · simp [channelKindOf, ht, hobjlike, s1, s2, d1, d2, d3]
                        · by_cases a1 : channelIs ch (strL ("answer")) = true
                          · simp [channelKindOf, ht, hobjlike, s1, s2, d1, d2, d3, a1]
                          · by_cases a2 : channelIs ch (strL ("response")) = true
                            · simp [channelKindOf, ht, hobjlike, s1, s2, d1, d2, d3, a1, a2]
                            · by_cases e1 : channelIs ch (strL ("end")) = true
                              · simp [channelKindOf, ht, hobjlike, s1, s2, d1, d2, d3, a1, a2, e1]
                              · by_cases e2 : channelIs ch (strL ("complete")) = true
                                · simp [channelKindOf, ht, hobjlike, s1, s2, d1, d2, d3, a1, a2, e1, e2]
                                · by_cases st : statusDone v = true
                                  · by_cases er : channelIs ch (strL ("error")) = true
                                    · simp [channelKindOf, ht, hobjlike, s1, s2, d1, d2, d3, a1, a2, e1, e2, st, er]
                                    · simp [channelKindOf, ht, hobjlike, s1, s2, d1, d2, d3, a1, a2, e1, e2, st, er]
                                  · by_cases er : channelIs ch (strL ("error")) = true
                                    · simp [channelKindOf, ht, hobjlike, s1, s2, d1, d2, d3, a1, a2, e1, e2, st, er]
                                    · by_cases ef : (v.get (strL ("error"))).any JVal.truthy = true
                                      · simp [channelKindOf, ht, hobjlike, s1, s2, d1, d2, d3, a1, a2, e1, e2, st, er, ef]
                                      · by_cases hc : ck.truthy = true
                                        · simp [channelKindOf, ht, hobjlike, s1, s2, d1, d2, d3, a1, a2, e1, e2, st, er, ef, hc]
                                        · simp [channelKindOf, ht, hobjlike, s1, s2, d1, d2, d3, a1, a2, e1, e2, st, er, ef, hc]
              · simp [ht, hobjlike]
            · simp [ht]

/-- A finished session's `complete` is a no-op. -/
theorem completeSession_finished (sid : Nat) (status : List Char) (err : Option JVal)
    (st : StreamState) (h : st.sessionFinished = true) :
    completeSession sid status err st = st := by
  simp [completeSession, h]

/-- Completing an unfinished, non-superseded session sets the finished
flag, clears the busy flag, re-enables HUD listening and appends exactly
one completion notification. -/
theorem completeSession_fresh (sid : Nat) (status : List Char) (err : Option JVal)
    (st : StreamState) (hf : st.sessionFinished = false)
    (hsid : st.coord.answerSessionId = sid) :
    completeSession sid status err st =
      { st with
        sessionFinished := true
        coord := { st.coord with answerInProgress := false, hudListeningState := true }
        completions := st.completions ++ [⟨status, err⟩] } := by
  obtain ⟨⟨ip, ls, asid⟩, fin, comps, rels⟩ := st
  simp only at hsid hf
  simp [completeSession, hf, finalizeAnswerSession, hsid]

/-- Completing an unfinished but superseded session only sets the
finished flag: `finalizeAnswerSession` skips everything else. -/
theorem completeSession_stale (sid : Nat) (status : List Char) (err : Option JVal)
    (st : StreamState) (hf : st.sessionFinished = false)
    (hsid : ¬ st.coord.answerSessionId = sid) :
    completeSession sid status err st = { st with sessionFinished := true } := by
  obtain ⟨⟨ip, ls, asid⟩, fin, comps, rels⟩ := st
  simp only at hf hsid
  have hne : ¬ sid = asid := fun h' => hsid h'.symm
  simp [completeSession, hf, finalizeAnswerSession, hne]

/-- A non-terminal socket event changes relays only. -/
theorem stepSockEv_nonterminal (sid : Nat) (st : StreamState) (ev : SockEv)
    (h : isTerminal ev = false) :
    (stepSockEv sid st ev).coord = st.coord
    ∧ (stepSockEv sid st ev).sessionFinished = st.sessionFinished
    ∧ (stepSockEv sid st ev).completions = st.completions := by
  cases ev with
  | openEv => exact ⟨rfl, rfl, rfl⟩
  | message d =>
    simp only [stepSockEv]
    cases hi : interpretAskMessage d with
    | summary ck => dsimp only; split_ifs <;> exact ⟨rfl, rfl, rfl⟩
    | summaryDone => exact ⟨rfl, rfl, rfl⟩
    | answer ck => dsimp only; split_ifs <;> exact ⟨rfl, rfl, rfl⟩
    | endEv => simp [isTerminal, hi] at h
    | errorEv e => simp [isTerminal, hi] at h
    | noop => exact ⟨rfl, rfl, rfl⟩
  | errorWith m => simp [isTerminal] at h
  | closeEv => simp [isTerminal] at h

/-- A run of non-terminal socket events preserves the coordinator state,
the finished flag and the completion history. -/
theorem runSockEvs_nonterminal (sid : Nat) (evs : List SockEv) :
    ∀ st : StreamState, (∀ e ∈ evs, isTerminal e = false) →
      (runSockEvs sid st evs).coord = st.coord
      ∧ (runSockEvs sid st evs).sessionFinished = st.sessionFinished
      ∧ (runSockEvs sid st evs).completions = st.completions := by
  induction evs with
  | nil => intro st _; exact ⟨rfl, rfl, rfl⟩
  | cons e es ih =>
    intro st h
    have h1 := stepSockEv_nonterminal sid st e (h e (List.mem_cons_self e es))
    have h2 := ih (stepSockEv sid st e) (fun x hx => h x (List.mem_cons_of_mem e hx))
    simp only [runSockEvs, List.foldl_cons] at *
    exact ⟨h2.1.trans h1.1, h2.2.1.trans h1.2.1, h2.2.2.trans h1.2.2⟩

/-- After the session has finished, no socket event changes the
coordinator state, the finished flag or the completion history. -/
theorem stepSockEv_finished (sid : Nat) (st : StreamState) (ev : SockEv)
    (h : st.sessionFinished = true) :
    (stepSockEv sid st ev).coord = st.coord
    ∧ (stepSockEv sid st ev).sessionFinished = st.sessionFinished
    ∧ (stepSockEv sid st ev).completions = st.completions := by
  cases ev with
  | openEv => exact ⟨rfl, rfl, rfl⟩
  | message d =>
    simp only [stepSockEv]
    cases hi : interpretAskMessage d with
    | summary ck => dsimp only; split_ifs <;> exact ⟨rfl, rfl, rfl⟩
    | summaryDone => exact ⟨rfl, rfl, rfl⟩
    | answer ck => dsimp only; split_ifs <;> exact ⟨rfl, rfl, rfl⟩
    | endEv => dsimp only; rw [completeSession_finished sid _ _ st h]; exact ⟨rfl, rfl, rfl⟩
    | errorEv e => dsimp only; rw [completeSession_finished sid _ _ st h]; exact ⟨rfl, rfl, rfl⟩
    | noop => exact ⟨rfl, rfl, rfl⟩
  | errorWith m =>
    simp only [stepSockEv]
    rw [completeSession_finished sid _ _ st h]
    exact ⟨rfl, rfl, rfl⟩
  | closeEv =>
    simp [stepSockEv, h]

/-- A finished session absorbs any further socket events. -/
theorem runSockEvs_finished (sid : Nat) (evs : List SockEv) :
    ∀ st : StreamState, st.sessionFinished = true →
      (runSockEvs sid st evs).coord = st.coord
      ∧ (runSockEvs sid st evs).sessionFinished = st.sessionFinished
      ∧ (runSockEvs sid st evs).completions = st.completions := by
  induction evs with
  | nil => intro st _; exact ⟨rfl, rfl, rfl⟩
  | cons e es ih =>
    intro st h
    have h1 := stepSockEv_finished sid st e h
    have h2 := ih (stepSockEv sid st e) (h1.2.1.trans h)
    simp only [runSockEvs, List.foldl_cons] at *
    exact ⟨h2.1.trans h1.1, h2.2.1.trans h1.2.1, h2.2.2.trans h1.2.2⟩

/-- The first terminal trigger of an unfinished, current session emits
exactly one completion, marks the session finished, clears the busy flag
and re-enables HUD listening. -/
theorem stepSockEv_terminal (sid : Nat) (st : StreamState) (t : SockEv)
    (ht : isTerminal t = true) (hf : st.sessionFinished = false)
    (hsid : st.coord.answerSessionId = sid) :
    (stepSockEv sid st t).sessionFinished = true
    ∧ (stepSockEv sid st t).completions = st.completions ++ [expectedCompletion t]
    ∧ (stepSockEv sid st t).coord.answerInProgress = false
    ∧ (stepSockEv sid st t).coord.hudListeningState = true := by
  cases t with
  | openEv => simp [isTerminal] at ht
  | message d =>
    simp only [stepSockEv, expectedCompletion]
    cases hi : interpretAskMessage d with
    | summary ck => simp [isTerminal, hi] at ht
    | summaryDone => simp [isTerminal, hi] at ht
    | answer ck => simp [isTerminal, hi] at ht
    | endEv =>
      dsimp only
      rw [completeSession_fresh sid _ _ st hf hsid]
      exact ⟨rfl, rfl, rfl, rfl⟩
    | errorEv e =>
      dsimp only
      rw [completeSession_fresh sid _ _ st hf hsid]
      exact ⟨rfl, rfl, rfl, rfl⟩
    | noop => simp [isTerminal, hi] at ht
  | errorWith m =>
    simp only [stepSockEv, expectedCompletion]
    rw [completeSession_fresh sid _ _ st hf hsid]
    exact ⟨rfl, rfl, rfl, rfl⟩
  | closeEv =>
    simp only [stepSockEv, expectedCompletion, hf, if_false]
    rw [completeSession_fresh sid _ _ st hf hsid]
    exact ⟨rfl, rfl, rfl, rfl⟩

/-- Invariant: an unfinished session has emitted no completion, and never
more than one is emitted overall. -/
def completionsInv (st : StreamState) : Prop :=
  (st.sessionFinished = false → st.completions = []) ∧ st.completions.length ≤ 1

/-- Every socket event preserves `completionsInv`. -/
theorem stepSockEv_inv (sid : Nat) (st : StreamState) (ev : SockEv)
    (h : completionsInv st) : completionsInv (stepSockEv sid st ev) := by
  by_cases hf : st.sessionFinished = true
  · have := stepSockEv_finished sid st ev hf
    constructor
    · intro hx
      rw [this.2.1, hf] at hx
      exact absurd hx (by simp)
    · rw [this.2.2]; exact h.2
  · have hf' : st.sessionFinished = false := by
      cases hx : st.sessionFinished
      · rfl
      · exact absurd hx hf
    by_cases hterm : isTerminal ev = true
    · by_cases hsid : st.coord.answerSessionId = sid
      · have := stepSockEv_terminal sid st ev hterm hf' hsid
        constructor
        · intro hx; rw [this.1] at hx; exact absurd hx (by simp)
        · rw [this.2.1, h.1 hf']; simp
      · -- same case analysis but finalize guard fails: completions unchanged
        have hcomp : (stepSockEv sid st ev).completions = st.completions := by
          cases ev with
          | openEv => rfl
          | message d =>
            simp only [stepSockEv]
            cases hi : interpretAskMessage d with
            | summary ck => dsimp only; split_ifs <;> rfl
            | summaryDone => rfl
            | answer ck => dsimp only; split_ifs <;> rfl
            | endEv => dsimp only; rw [completeSession_stale sid _ _ st hf' hsid]
            | errorEv e => dsimp only; rw [completeSession_stale sid _ _ st hf' hsid]
            | noop => rfl
          | errorWith m =>
            simp only [stepSockEv]
            rw [completeSession_stale sid _ _ st hf' hsid]
          | closeEv =>
            have hstep : stepSockEv sid st .closeEv
                = completeSession sid (strL ("error"))
                    (some (.jstr (strL ("Connection closed unexpectedly")))) st := by
              simp [stepSockEv, hf']
            rw [hstep, completeSession_stale sid _ _ st hf' hsid]
        constructor
        · intro _; rw [hcomp]; exact h.1 hf'
        · rw [hcomp]; exact h.2
    · have hterm' : isTerminal ev = false := by
        cases hx : isTerminal ev
        · rfl
        · exact absurd hx hterm
      have := stepSockEv_nonterminal sid st ev hterm'
      constructor
      · intro hx; rw [this.2.2]; exact h.1 (by rw [← this.2.1]; exact hx)
      · rw [this.2.2]; exact h.2

/-- Every run of socket events preserves `completionsInv`. -/
theorem runSockEvs_inv (sid : Nat) (evs : List SockEv) :
    ∀ st : StreamState, completionsInv st → completionsInv (runSockEvs sid st evs) := by
  induction evs with
  | nil => intro st h; exact h
  | cons e es ih =>
    intro st h
    simp only [runSockEvs, List.foldl_cons] at *
    exact ih _ (stepSockEv_inv sid st e h)

/-- C3: for every session, the completion notification is emitted at most
once over any event sequence; on the first terminal trigger — an `[END]`
frame (status done), an error frame or transport error (with its reason),
or a close with no prior terminal frame (reason "Connection closed
unexpectedly") — exactly the corresponding notification is emitted, the
busy flag is cleared and HUD transcript listening is re-enabled, so a
subsequent session request is never rejected as Busy. -/
theorem c3_completion_exactly_once (g : CoordState) (pre post : List SockEv) (t : SockEv)
    (hpre : ∀ e ∈ pre, isTerminal e = false) (ht : isTerminal t = true) :
    (runSockEvs (g.answerSessionId + 1) (sessionIniState g) (pre ++ t :: post)).completions
        = [expectedCompletion t]
    ∧ (runSockEvs (g.answerSessionId + 1) (sessionIniState g)
        (pre ++ t :: post)).coord.answerInProgress = false
    ∧ (runSockEvs (g.answerSessionId + 1) (sessionIniState g)
        (pre ++ t :: post)).coord.hudListeningState = true
    ∧ (∀ evs, ((runSockEvs (g.answerSessionId + 1) (sessionIniState g) evs).completions).length ≤ 1)
    ∧ (∀ (p : StartPayload) (ws : Bool),
        (handleStartAnswer (runSockEvs (g.answerSessionId + 1) (sessionIniState g)
          (pre ++ t :: post)) p ws).status ≠ StartStatus.busy) := by
  set sid := g.answerSessionId + 1 with hsid_def
  set st0 := sessionIniState g with hst0
  have h0coord : st0.coord = ⟨true, false, sid⟩ := rfl
  have h0fin : st0.sessionFinished = false := rfl
  have h0comp : st0.completions = [] := rfl
  have hsplit : runSockEvs sid st0 (pre ++ t :: post)
      = runSockEvs sid (stepSockEv sid (runSockEvs sid st0 pre) t) post := by
    simp [runSockEvs, List.foldl_append]
  have hp := runSockEvs_nonterminal sid pre st0 hpre
  have hfin1 : (runSockEvs sid st0 pre).sessionFinished = false := hp.2.1.trans h0fin
  have hcomp1 : (runSockEvs sid st0 pre).completions = [] := hp.2.2.trans h0comp
  have hsid1 : (runSockEvs sid st0 pre).coord.answerSessionId = sid := by
    rw [hp.1, h0coord]
  have hterm := stepSockEv_terminal sid (runSockEvs sid st0 pre) t ht hfin1 hsid1
  have hpost := runSockEvs_finished sid post _ hterm.1
  have hcompF : (runSockEvs sid st0 (pre ++ t :: post)).completions = [expectedCompletion t] := by
    rw [hsplit, hpost.2.2, hterm.2.1, hcomp1]
    simp
  have hcoordF : (runSockEvs sid st0 (pre ++ t :: post)).coord
      = (stepSockEv sid (runSockEvs sid st0 pre) t).coord := by
    rw [hsplit]; exact hpost.1
  refine ⟨hcompF, ?_, ?_, ?_, ?_⟩
  · rw [hcoordF]; exact hterm.2.2.1
  · rw [hcoordF]; exact hterm.2.2.2
  · intro evs
    exact (runSockEvs_inv sid evs st0 ⟨fun _ => h0comp, by rw [h0comp]; simp⟩).2
  · intro p ws
    have hbusy : (runSockEvs sid st0 (pre ++ t :: post)).coord.answerInProgress = false := by
      rw [hcoordF]; exact hterm.2.2.1
    simp only [handleStartAnswer]
    split_ifs with h1 h2 h3 h4 h5 <;> simp_all

/-- Witness for `c3_completion_exactly_once`: an open, a chunk, an
`[END]` frame and a close yield the single `done` notification. -/
theorem c3_completion_exactly_once_witness :
    (runSockEvs 1 (sessionIniState ⟨false, true, 0⟩)
        ([SockEv.openEv, SockEv.message (some (strL ("hello")))]
          ++ SockEv.message (some (strL ("[END]"))) :: [SockEv.closeEv])).completions
      = [expectedCompletion (SockEv.message (some (strL ("[END]"))))] :=
  (c3_completion_exactly_once ⟨false, true, 0⟩
    [SockEv.openEv, SockEv.message (some (strL ("hello")))]
    [SockEv.closeEv] (SockEv.message (some (strL ("[END]"))))
    (by decide) (by rfl)).1

/-- C4 (amended): an event tagged with a positive session id strictly
less than the brain's current session id is never dispatched — stream
chunks, question completion and answer completion all leave the whole
brain state (buffers and every display field) unchanged. (An event tagged
0 — possible only as N-1 when N = 1 — bypasses the truthiness guard, see
`c4_counterexample`.) -/
theorem c4_amended_stale_guard (st : BrainState) (p : BrainPayload) (cp : CompletePayload)
    (hp1 : 1 ≤ p.sessionId) (hp2 : p.sessionId < st.sessionId)
    (hc1 : 1 ≤ cp.sessionId) (hc2 : cp.sessionId < st.sessionId) :
    onQuestionStream st p = st ∧ onAnswerStream st p = st
    ∧ onQuestionComplete st p = st ∧ onAnswerComplete st cp = st := by
  have hne : p.sessionId ≠ 0 := by omega
  have hcne : cp.sessionId ≠ 0 := by omega
  refine ⟨?_, ?_, ?_, ?_⟩
  · simp [onQuestionStream, resetStreams, hp2, hne]
  · simp [onAnswerStream, hp2, hne]
  · simp [onQuestionComplete, hp2, hne]
  · simp [onAnswerComplete, hc2, hcne]

/-- Witness for `c4_amended_stale_guard` at concrete states. -/
theorem c4_amended_stale_guard_witness :
    onQuestionStream (resetStreams brainIniState 5) ⟨false, 3, strL ("late")⟩
        = resetStreams brainIniState 5
    ∧ onAnswerComplete (resetStreams brainIniState 5) ⟨strL ("done"), none, 3⟩
        = resetStreams brainIniState 5 :=
  ⟨(c4_amended_stale_guard (resetStreams brainIniState 5) ⟨false, 3, strL ("late")⟩
      ⟨strL ("done"), none, 3⟩ (by decide) (by decide) (by decide) (by decide)).1,
   (c4_amended_stale_guard (resetStreams brainIniState 5) ⟨false, 3, strL ("late")⟩
      ⟨strL ("done"), none, 3⟩ (by decide) (by decide) (by decide) (by decide)).2.2.2⟩

/-- C4 counterexample: with the coordinator's current id N = 1, a
question-stream payload tagged N-1 = 0 is falsy, bypasses the supersession
guard and mutates the question buffer. -/
theorem c4_counterexample :
    (resetStreams brainIniState 1).sessionId = 1
    ∧ (0 : Nat) = (resetStreams brainIniState 1).sessionId - 1
    ∧ onQuestionStream (resetStreams brainIniState 1) ⟨false, 0, strL ("late chunk")⟩
        ≠ resetStreams brainIniState 1
    ∧ (onQuestionStream (resetStreams brainIniState 1)
        ⟨false, 0, strL ("late chunk")⟩).questionBuffer = strL ("late chunk") := by
  decide

/-- C10: a stream payload whose sessionId is absent or zero is appended
to the current display buffers regardless of the state's session id (so
even after a newer session's reset); the consumer-side guard discards only
payloads carrying a truthy (positive) session id strictly smaller than the
current one. -/
theorem c10_zero_tag_bypasses_guard (st : BrainState) (p : BrainPayload)
    (hreset : p.reset = false) (hchunk : p.chunk ≠ []) :
    (p.sessionId = 0 →
      (onQuestionStream st p).questionBuffer = st.questionBuffer ++ p.chunk
      ∧ (onAnswerStream st p).answerBuffer = st.answerBuffer ++ p.chunk)
    ∧ (1 ≤ p.sessionId → p.sessionId < st.sessionId →
      onQuestionStream st p = st ∧ onAnswerStream st p = st) := by
  constructor
  · intro h0
    constructor
    · simp [onQuestionStream, hreset, h0, hchunk]
    · simp [onAnswerStream, h0, hchunk]
  · intro h1 h2
    have hne : p.sessionId ≠ 0 := by omega
    exact ⟨by simp [onQuestionStream, hreset, hne, h2],
           by simp [onAnswerStream, hne, h2]⟩

/-- Witness for `c10_zero_tag_bypasses_guard`: a zero-tagged chunk lands
in the buffers of a state already reset to session 5. -/
theorem c10_zero_tag_bypasses_guard_witness :
    (onQuestionStream (resetStreams brainIniState 5)
        ⟨false, 0, strL ("zombie")⟩).questionBuffer
      = (resetStreams brainIniState 5).questionBuffer ++ strL ("zombie")
    ∧ (onAnswerStream (resetStreams brainIniState 5)
        ⟨false, 0, strL ("zombie")⟩).answerBuffer
      = (resetStreams brainIniState 5).answerBuffer ++ strL ("zombie") :=
  (c10_zero_tag_bypasses_guard (resetStreams brainIniState 5)
    ⟨false, 0, strL ("zombie")⟩ rfl (by decide)).1 rfl

/-- Once hard-stopped, the sanitizer ignores every further line. -/
theorem sanitizer_hardStopped_absorbs (lines : List (List Char)) :
    ∀ st : SanitizerState, st.hardStopped = true →
      lines.foldl sanitizerStep st = st := by
  induction lines with
  | nil => intro st _; rfl
  | cons l ls ih =>
    intro st h
    have hstep : sanitizerStep st l = st := by simp [sanitizerStep, h]
    simp only [List.foldl_cons, hstep]
    exact ih st h

/-- C9: once the terminal "Complexity Analysis" heading has been seen, a
further line carrying a different recognized heading hard-stops the
sanitizer: no line after that point changes the state or the assembled
output. -/
theorem c9_hard_stop (pre post : List (List Char)) (h : List Char) (c : Canon)
    (tr : List Char)
    (hseen : Canon.complexity ∈ (runSanitizer pre).seenSections)
    (hph : parseHeading h = some (c, tr)) (hne : c ≠ Canon.complexity) :
    runSanitizer (pre ++ h :: post) = runSanitizer (pre ++ [h])
    ∧ ∀ raw, assembleSanitized (runSanitizer (pre ++ h :: post)) raw
        = assembleSanitized (runSanitizer (pre ++ [h])) raw := by
  have hsplit1 : runSanitizer (pre ++ h :: post)
      = post.foldl sanitizerStep (sanitizerStep (runSanitizer pre) h) := by
    simp [runSanitizer, List.foldl_append]
  have hsplit2 : runSanitizer (pre ++ [h]) = sanitizerStep (runSanitizer pre) h := by
    simp [runSanitizer, List.foldl_append]
  have hstop : (sanitizerStep (runSanitizer pre) h).hardStopped = true := by
    by_cases hs : (runSanitizer pre).hardStopped = true
    · simp [sanitizerStep, hs]
    · have hs' : (runSanitizer pre).hardStopped = false := by
        cases hx : (runSanitizer pre).hardStopped
        · rfl
        · exact absurd hx hs
      simp [sanitizerStep, hs', hph, hseen, hne]
  have heq : runSanitizer (pre ++ h :: post) = runSanitizer (pre ++ [h]) := by
    rw [hsplit1, hsplit2, sanitizer_hardStopped_absorbs post _ hstop]
  exact ⟨heq, fun raw => by rw [heq]⟩

/-- Witness for `c9_hard_stop` on a concrete accumulated answer. -/
theorem c9_hard_stop_witness :
    runSanitizer ([strL ("## Complexity Analysis"), strL ("O(n) time")]
        ++ strL ("## Algorithm") :: [strL ("trailing junk")])
      = runSanitizer ([strL ("## Complexity Analysis"), strL ("O(n) time")]
        ++ [strL ("## Algorithm")]) :=
  (c9_hard_stop [strL ("## Complexity Analysis"), strL ("O(n) time")]
    [strL ("trailing junk")] (strL ("## Algorithm")) Canon.algorithm []
    (by decide) (by rfl) (by decide)).1

end Spectre
